import Mathlib

/-!
Verification development for the cf-bigip-ctlr f5router package.

The development embeds, as Lean definitions, the process supervisor in
src/f5router/driver.go and the update-coalescing aggregator described by
the specification (the aggregator source file itself is not part of the
source tree; only its tests are, so those definitions are modelled from
the specification, as marked in their doc comments).
-/

namespace F5Router

/-! ### Diagnostic line classification (driver.go, runBigIPDriver scan loop) -/

/-- Levels of the structured logger used by the driver. The level
`critical` is listed because the specification speaks of a critical
level; the scan loop in driver.go never selects it. -/
inductive LogLevel where
  | debug
  | warn
  | error
  | critical
  | info
deriving DecidableEq

/-- Substring test on character lists: true when pat occurs contiguously. -/
def hasSubList (pat : List Char) : List Char → Bool
  | [] => List.isPrefixOf pat []
  | c :: t => List.isPrefixOf pat (c :: t) || hasSubList pat t

/-- Embedding of Go strings.Contains. -/
def strContains (s pat : String) : Bool :=
  hasSubList pat.toList s.toList

/-- Embedding of the classification chain in runBigIPDriver
(driver.go lines 94-104): successive strings.Contains tests on the
scanned line; note that the CRITICAL branch calls logger.Error. -/
def classifyLine (line : String) : LogLevel :=
  if strContains line "DEBUG]" then LogLevel.debug
  else if strContains line "Warn]" then LogLevel.warn
  else if strContains line "ERROR]" then LogLevel.error
  else if strContains line "CRITICAL]" then LogLevel.error
  else LogLevel.info

/-! ### Driver construction and command line (driver.go) -/

/-- Embedding of the Driver struct fields used by the supervisor logic
(the logger and device-config fields carry no behaviour here). -/
structure Driver where
  fname : String
  driverCmd : String
deriving DecidableEq

/-- Embedding of NewDriver. -/
def NewDriver (configFile : String) (driverCmd : String) : Driver :=
  { fname := configFile, driverCmd := driverCmd }

/-- Result of exec.Command: an executable name plus argument list. -/
structure ExecCmd where
  cmdName : String
  cmdArgs : List String
deriving DecidableEq

/-- Embedding of createDriverCmd (driver.go lines 60-71): the
interpreter is the fixed string python; the arguments are the configured
script path and the fixed config-file flag with the configured file. -/
def createDriverCmd (d : Driver) : ExecCmd :=
  { cmdName := "python"
    cmdArgs := [d.driverCmd, "--config-file", d.fname] }

/-! ### Child process start phase (driver.go lines 80-87) -/

/-- Outcome of the start phase of runBigIPDriver. -/
inductive StartOutcome where
  | fatalStart (e : String)
  | running
deriving DecidableEq

/-- Embedding of the start phase of runBigIPDriver: the error returned
by StderrPipe is bound to err, then err is rebound to the result of
cmd.Start before it is ever inspected, exactly as in the source. -/
def startPhase (pipeErr : Option String) (startErr : Option String) : StartOutcome :=
  let err := pipeErr
  let err := startErr
  match err with
  | some e => StartOutcome.fatalStart e
  | none => StartOutcome.running

/-! ### Child process exit handling (driver.go lines 109-127) -/

/-- Ways the child process wait can end: exit with a status code,
termination by a signal, or a wait error that is neither. -/
inductive ExitStatus where
  | exited (code : Nat)
  | signaled (sig : Nat)
  | waitFailure (msg : String)
deriving DecidableEq

/-- Outcome of the wait phase of runBigIPDriver. The three fatal
constructors correspond to logger.Fatal calls, whose contract is to
terminate the hosting process; exitedNormally corresponds to the
warn-and-close-done branch. -/
inductive WaitOutcome where
  | fatalSignaled (sig : Nat)
  | fatalExited (code : Nat)
  | fatalWait (msg : String)
  | exitedNormally
deriving DecidableEq

/-- Embedding of the wait phase of runBigIPDriver: a non-zero exit
status or a signal termination surfaces as an ExitError and hits a
Fatal branch; any other wait error is also Fatal; a zero exit status
is logged as a warning and closes the done channel. -/
def waitPhase : ExitStatus → WaitOutcome
  | ExitStatus.exited 0 => WaitOutcome.exitedNormally
  | ExitStatus.exited (c + 1) => WaitOutcome.fatalExited (c + 1)
  | ExitStatus.signaled s => WaitOutcome.fatalSignaled s
  | ExitStatus.waitFailure m => WaitOutcome.fatalWait m

/-! ### Run (driver.go lines 130-161) -/

/-- How a call to Run ends: it returns a value to its caller, or the
hosting process is terminated by a Fatal log in runBigIPDriver before
the done channel is ever closed. -/
inductive RunResult where
  | returned (err : Option String)
  | fatalled (w : WaitOutcome)
deriving DecidableEq

/-- Embedding of Run after the child is started and a signal value sig
arrives on the signals channel. findErr models the error of
os.FindProcess, sigErr the error of proc.Signal, and exit the way the
child ends. The second component records the signal value actually
delivered to the child pid, none when delivery never happened. -/
def runDriver (sig : Nat) (findErr : Option String) (sigErr : Option String)
    (exit : ExitStatus) : RunResult × Option Nat :=
  match findErr with
  | some e => (RunResult.returned (some e), none)
  | none =>
    match sigErr with
    | some e => (RunResult.returned (some e), none)
    | none =>
      match waitPhase exit with
      | WaitOutcome.exitedNormally => (RunResult.returned none, some sig)
      | w => (RunResult.fatalled w, some sig)

/-! ### Config Model data (modelled from the spec, sections 3 and 4.2;
the aggregator source file f5router.go is not under src/, only its
tests) -/

/-- Modelled from the spec: a RouteConfig is one backend-service entry,
identified by service name and service port, holding its member
endpoints (section 3; the sort tests exercise the fields ServiceName
and ServicePort). -/
structure routeConfig where
  serviceName : String
  servicePort : Nat
  members : List String
deriving DecidableEq

/-- Modelled from the spec: a Rule is an L7 routing directive keyed by
a full URI, referencing a backend pool (section 3; the sort test
exercises the field FullURI). -/
structure routeRule where
  fullURI : String
  poolName : String
deriving DecidableEq

/-- Key under which a RouteConfig is unique in the model. -/
def rcKey (rc : routeConfig) : String × Nat :=
  (rc.serviceName, rc.servicePort)

/-- Key under which a Rule is unique in the model. -/
def ruleKey (r : routeRule) : String :=
  r.fullURI

/-- Lexicographic strict order on character lists, character order
taken from the character values, as Go compares strings. -/
def lexLTb : List Char → List Char → Bool
  | [], [] => false
  | [], _ :: _ => true
  | _ :: _, [] => false
  | a :: as, b :: bs =>
    if a < b then true
    else if b < a then false
    else lexLTb as bs

/-- Lexicographic strict order on strings. -/
def strLT (s t : String) : Prop :=
  lexLTb s.toList t.toList = true

instance : DecidableRel strLT := fun s t => by
  unfold strLT; infer_instance

/-- Modelled from the spec: comparator for RouteConfigs, ServiceName
ascending and, on equal names, ServicePort ascending (section 4.2). -/
def rcLE (a b : routeConfig) : Prop :=
  strLT a.serviceName b.serviceName ∨
    (a.serviceName = b.serviceName ∧ a.servicePort ≤ b.servicePort)

/-- Strict key order on RouteConfigs, used to show sorted orders with
distinct keys are unique. -/
def rcLT (a b : routeConfig) : Prop :=
  strLT a.serviceName b.serviceName ∨
    (a.serviceName = b.serviceName ∧ a.servicePort < b.servicePort)

/-- Modelled from the spec: comparator for Rules, FullURI ascending,
lexicographic over the full host and path string (section 4.2). -/
def ruleLE (a b : routeRule) : Prop :=
  strLT a.fullURI b.fullURI ∨ a.fullURI = b.fullURI

/-- Strict key order on Rules. -/
def ruleLT (a b : routeRule) : Prop :=
  strLT a.fullURI b.fullURI

instance : DecidableRel rcLE := fun a b => by
  unfold rcLE; infer_instance

instance : DecidableRel rcLT := fun a b => by
  unfold rcLT; infer_instance

instance : DecidableRel ruleLE := fun a b => by
  unfold ruleLE; infer_instance

instance : DecidableRel ruleLT := fun a b => by
  unfold ruleLT; infer_instance

/-- Modelled from the spec: the Config Model, RouteConfigs plus Rules
(section 3). Lists stand for the map contents; the model invariant
that keys are unique appears as a hypothesis where it matters. -/
structure ConfigModel where
  routeConfigs : List routeConfig
  rules : List routeRule
deriving DecidableEq

/-- Empty model, as created at aggregator construction. -/
def emptyModel : ConfigModel := { routeConfigs := [], rules := [] }

/-- Snapshot order of the RouteConfig entries: sorted with the
comparator. -/
def snapshotRCs (m : ConfigModel) : List routeConfig :=
  List.insertionSort rcLE m.routeConfigs

/-- Snapshot order of the Rule entries: sorted with the comparator. -/
def snapshotRules (m : ConfigModel) : List routeRule :=
  List.insertionSort ruleLE m.rules

/-- Modelled from the spec: rendering of one RouteConfig into the
snapshot byte sequence. -/
def renderRC (rc : routeConfig) : String :=
  rc.serviceName ++ ":" ++ toString rc.servicePort ++ "=" ++
    String.intercalate "," rc.members

/-- Modelled from the spec: rendering of one Rule into the snapshot
byte sequence. -/
def renderRule (r : routeRule) : String :=
  r.fullURI ++ "->" ++ r.poolName

/-- Modelled from the spec: the Snapshot Serializer, a pure function of
the model that renders the entries in comparator order (section 4.2). -/
def serializeModel (m : ConfigModel) : String :=
  String.intercalate ";" ((snapshotRCs m).map renderRC) ++ "|" ++
    String.intercalate ";" ((snapshotRules m).map renderRule)

/-! ### Building a model from Add events (modelled from the spec,
section 4.1) -/

/-- Insert-or-replace by key: the list analogue of a map update. -/
def upsertBy {α κ : Type} [DecidableEq κ] (key : α → κ) (a : α) :
    List α → List α
  | [] => [a]
  | x :: xs => if key x = key a then a :: xs else x :: upsertBy key a xs

/-- Modelled from the spec: applying a sequence of Add events to an
empty registry of entries, each event merging its entry under its key
(section 4.1). -/
def applyAddsBy {α κ : Type} [DecidableEq κ] (key : α → κ)
    (evs : List α) : List α :=
  evs.foldl (fun m a => upsertBy key a m) []

/-- Modelled from the spec: the model obtained from a burst of Add
events, one RouteConfig and one Rule per event. -/
def buildModel (evs : List routeConfig) (rls : List routeRule) : ConfigModel :=
  { routeConfigs := applyAddsBy rcKey evs
    rules := applyAddsBy ruleKey rls }

/-! ### Coalescing aggregator (modelled from the spec, sections 4.1
and 5) -/

/-- Modelled from the spec: one route-change event, Add carrying the
derived RouteConfig and Rule, Remove carrying the keys to drop
(section 4.1). -/
inductive RouteEvent where
  | add (rc : routeConfig) (rl : routeRule)
  | remove (k : String × Nat) (uri : String)
deriving DecidableEq

/-- Modelled from the spec: effect of one RouteUpdate mutation on the
Config Model (section 4.1): Add merges under the keys, Remove deletes
the entries for the keys. -/
def applyEvent : RouteEvent → ConfigModel → ConfigModel
  | RouteEvent.add rc rl, m =>
      { routeConfigs := upsertBy rcKey rc m.routeConfigs
        rules := upsertBy ruleKey rl m.rules }
  | RouteEvent.remove k uri, m =>
      { routeConfigs := m.routeConfigs.filter (fun rc => decide (rcKey rc ≠ k))
        rules := m.rules.filter (fun rl => decide (ruleKey rl ≠ uri)) }

/-- Modelled from the spec: interleaving steps of the aggregator and
its flush task. An update step is one RouteUpdate mutation under the
lock; beginFlush samples the model into an in-flight snapshot, allowed
only when the model is dirty and no flush is in flight; endFlush hands
the in-flight snapshot to the Config Sink as one Write (section 4.1,
coalescing flush). -/
inductive AggStep where
  | update (u : RouteEvent)
  | beginFlush
  | endFlush
deriving DecidableEq

/-- Modelled from the spec: aggregator state, the model, the dirty
mark, the snapshot of the flush currently in flight, and the sequence
of Write calls the Config Sink has observed. -/
structure AggState where
  model : ConfigModel
  dirty : Bool
  inFlight : Option String
  writes : List String
deriving DecidableEq

/-- Initial state around a burst: clean model, no flush in flight, no
writes observed yet. -/
def initAgg (m : ConfigModel) : AggState :=
  { model := m, dirty := false, inFlight := none, writes := [] }

/-- Modelled from the spec: one labelled transition of the coalescing
scheme; none when the step is not enabled (section 4.1: exactly one
flush in flight, a flush begins only for a dirty model). -/
def stepAgg (s : AggState) : AggStep → Option AggState
  | AggStep.update u =>
      some { s with model := applyEvent u s.model, dirty := true }
  | AggStep.beginFlush =>
      if s.dirty && s.inFlight.isNone then
        some { s with dirty := false, inFlight := some (serializeModel s.model) }
      else
        none
  | AggStep.endFlush =>
      match s.inFlight with
      | some snap => some { s with inFlight := none, writes := s.writes ++ [snap] }
      | none => none

/-- Run a whole interleaving of steps. -/
def runAgg (s : AggState) : List AggStep → Option AggState
  | [] => some s
  | stp :: rest =>
    match stepAgg s stp with
    | some s2 => runAgg s2 rest
    | none => none

/-- Quiescent state: nothing dirty, nothing in flight (every requested
flush has run and completed). -/
def quiescent (s : AggState) : Prop :=
  s.dirty = false ∧ s.inFlight = none

/-- Number of RouteUpdate mutations in a trace. -/
def countUpdates : List AggStep → Nat
  | [] => 0
  | AggStep.update _ :: rest => countUpdates rest + 1
  | _ :: rest => countUpdates rest

/-- Completed writes plus in-flight flush plus pending dirty mark:
an upper bound witness for the flush count. -/
def flushCount (s : AggState) : Nat :=
  s.writes.length + (if s.inFlight.isSome then 1 else 0) +
    (if s.dirty then 1 else 0)

/-- Invariant tying the last observed write to the model: when the
model is clean, an in-flight snapshot equals the serialized model, and
with nothing in flight the last write (if any) equals the serialized
model. -/
def lastWriteOK (s : AggState) : Prop :=
  s.dirty = false →
    match s.inFlight with
    | some snap => snap = serializeModel s.model
    | none => s.writes = [] ∨ s.writes.getLast? = some (serializeModel s.model)

/-- Invariant giving the lower bound: a quiescent state after at least
one mutation has at least one completed write. -/
def flushLB (s : AggState) (k : Nat) : Prop :=
  s.dirty = false → s.inFlight = none → 1 ≤ k → 1 ≤ s.writes.length

/-- Inductive invariant of the coalescing scheme relative to the number
k of mutations so far. -/
def aggInv (s : AggState) (k : Nat) : Prop :=
  flushCount s ≤ k ∧ lastWriteOK s ∧ flushLB s k

/-- Concrete demonstration event for the burst machinery. -/
def demoEvent : RouteEvent :=
  RouteEvent.add
    { serviceName := "foo", servicePort := 80, members := ["127.0.0.1"] }
    { fullURI := "foo.cf.com", poolName := "foo-pool" }

/-- Second concrete demonstration event. -/
def demoEvent2 : RouteEvent :=
  RouteEvent.add
    { serviceName := "bar", servicePort := 8080, members := ["127.0.1.1"] }
    { fullURI := "bar.cf.com", poolName := "bar-pool" }

/-- Concrete demonstration trace: two concurrent updates whose flush
requests coalesce into one flush. -/
def demoTrace : List AggStep :=
  [AggStep.update demoEvent, AggStep.update demoEvent2,
   AggStep.beginFlush, AggStep.endFlush]

/-- Final state of the demonstration trace. -/
def demoFinal : AggState :=
  (runAgg (initAgg emptyModel) demoTrace).getD (initAgg emptyModel)

/-! ### Aggregator construction (modelled from the spec, sections 4.1
and 6) -/

/-- Modelled from the spec: the BigIP device settings checked at
construction (section 6, construction validation; the test
TestBadConfig fills them in this order). -/
structure BigIPConfig where
  url : String
  user : String
  pass : String
  partitions : List String
  externalAddr : String
deriving DecidableEq

/-- Modelled from the spec: the Config Sink handle passed to the
aggregator at construction. -/
structure RouterWriter where
  outputFilename : String
deriving DecidableEq

/-- Modelled from the spec: a constructed aggregator, holding the
validated settings, the sink, and the (initially empty) model. -/
structure F5RouterT where
  bigIP : BigIPConfig
  writer : RouterWriter
  model : ConfigModel
deriving DecidableEq

/-- Modelled from the spec: NewF5Router construction validation
(section 6): config and sink must be present, and management URL,
user, password, partition list and external address must all be
non-empty, otherwise a configuration error is returned and no
aggregator is created. -/
def NewF5Router (c : Option BigIPConfig) (w : Option RouterWriter) :
    Except String F5RouterT :=
  match c with
  | none => Except.error "missing config"
  | some c =>
    match w with
    | none => Except.error "missing writer"
    | some w =>
      if c.url = "" then Except.error "missing BigIP url"
      else if c.user = "" then Except.error "missing BigIP user"
      else if c.pass = "" then Except.error "missing BigIP password"
      else if c.partitions = [] then Except.error "missing BigIP partitions"
      else if c.externalAddr = "" then Except.error "missing external address"
      else Except.ok { bigIP := c, writer := w, model := emptyModel }

/-- True when construction yielded an aggregator. -/
def constructionOK (r : Except String F5RouterT) : Bool :=
  match r with
  | Except.ok _ => true
  | Except.error _ => false

/-! ### Theorems about the process supervisor -/

/-- Claim C10: when creating the pipe to the error stream of the child
fails, runBigIPDriver discards that error, because the variable is
rebound to the result of starting the process before being inspected;
the start phase proceeds identically whatever the pipe error was, and
only a failure of the start itself is fatal. -/
theorem startPhase_discards_pipe_error (p s : Option String) :
    startPhase p s = startPhase none s ∧
    startPhase p none = StartOutcome.running ∧
    ∀ e, startPhase p (some e) = StartOutcome.fatalStart e :=
  ⟨rfl, rfl, fun _ => rfl⟩

/-- Claim C9 counterexample: at the concrete driver built from config
file cfg.json and script script.py, the interpreter of the child
command line is the fixed string python, which is neither of the two
configured paths of the driver, so the interpreter is not a configured
executable path. -/
theorem createDriverCmd_interpreter_fixed :
    (createDriverCmd (NewDriver "cfg.json" "script.py")).cmdName = "python" ∧
    (createDriverCmd (NewDriver "cfg.json" "script.py")).cmdName ≠
      (NewDriver "cfg.json" "script.py").driverCmd ∧
    (createDriverCmd (NewDriver "cfg.json" "script.py")).cmdName ≠
      (NewDriver "cfg.json" "script.py").fname := by
  refine ⟨rfl, ?_, ?_⟩ <;> decide

/-- Claim C9 (amended): the child-process command line is exactly
python, then the configured driverCmd script path, then the flag
--config-file, then the configured configuration file name; the
interpreter is the fixed string python, not a configured path. -/
theorem createDriverCmd_shape (d : Driver) :
    createDriverCmd d =
      { cmdName := "python"
        cmdArgs := [d.driverCmd, "--config-file", d.fname] } :=
  rfl

/-- Claim C5: Run returns without error exactly when the signal lookup
and delivery succeed and the child then exits with status zero; a
non-zero exit status or a termination by signal instead ends in a
Fatal log, terminating the hosting process rather than returning. -/
theorem run_returns_ok_iff (sig : Nat) (findErr sigErr : Option String)
    (exit : ExitStatus) :
    ((runDriver sig findErr sigErr exit).1 = RunResult.returned none ↔
      findErr = none ∧ sigErr = none ∧ exit = ExitStatus.exited 0) ∧
    (∀ c, findErr = none → sigErr = none → exit = ExitStatus.exited (c + 1) →
      (runDriver sig findErr sigErr exit).1 =
        RunResult.fatalled (WaitOutcome.fatalExited (c + 1))) ∧
    (∀ sg, findErr = none → sigErr = none → exit = ExitStatus.signaled sg →
      (runDriver sig findErr sigErr exit).1 =
        RunResult.fatalled (WaitOutcome.fatalSignaled sg)) := by
  refine ⟨?_, ?_, ?_⟩
  · cases findErr with
    | some e => simp [runDriver]
    | none =>
      cases sigErr with
      | some e => simp [runDriver]
      | none =>
        cases exit with
        | exited c =>
          cases c with
          | zero => simp [runDriver, waitPhase]
          | succ n => simp [runDriver, waitPhase]
        | signaled s => simp [runDriver, waitPhase]
        | waitFailure m => simp [runDriver, waitPhase]
  · rintro c rfl rfl rfl
    simp [runDriver, waitPhase]
  · rintro sg rfl rfl rfl
    simp [runDriver, waitPhase]

/-- Claim C5 witness: at concrete inputs, a clean zero exit after a
delivered signal returns without error, while a non-zero exit and a
signal termination end in the corresponding fatal outcomes. -/
theorem run_returns_ok_iff_witness :
    (runDriver 15 none none (ExitStatus.exited 0)).1 = RunResult.returned none ∧
    (runDriver 15 none none (ExitStatus.exited 2)).1 =
      RunResult.fatalled (WaitOutcome.fatalExited 2) ∧
    (runDriver 15 none none (ExitStatus.signaled 9)).1 =
      RunResult.fatalled (WaitOutcome.fatalSignaled 9) :=
  ⟨(run_returns_ok_iff 15 none none (ExitStatus.exited 0)).1.mpr ⟨rfl, rfl, rfl⟩,
   (run_returns_ok_iff 15 none none (ExitStatus.exited 2)).2.1 1 rfl rfl rfl,
   (run_returns_ok_iff 15 none none (ExitStatus.signaled 9)).2.2 9 rfl rfl rfl⟩

/-- Claim C7: when lookup and delivery succeed, the signal delivered to
the child pid is exactly the signal value Run received, and any signal
value ever delivered equals the received one. -/
theorem run_signal_fidelity (sig : Nat) (findErr sigErr : Option String)
    (exit : ExitStatus) :
    (findErr = none → sigErr = none →
      (runDriver sig findErr sigErr exit).2 = some sig) ∧
    (∀ s, (runDriver sig findErr sigErr exit).2 = some s → s = sig) := by
  constructor
  · rintro rfl rfl
    cases exit with
    | exited c => cases c <;> simp [runDriver, waitPhase]
    | signaled s => simp [runDriver, waitPhase]
    | waitFailure m => simp [runDriver, waitPhase]
  · intro s hs
    cases findErr with
    | some e => simp [runDriver] at hs
    | none =>
      cases sigErr with
      | some e => simp [runDriver] at hs
      | none =>
        cases exit with
        | exited c =>
          cases c with
          | zero => simp [runDriver, waitPhase] at hs; omega
          | succ n => simp [runDriver, waitPhase] at hs; omega
        | signaled sg => simp [runDriver, waitPhase] at hs; omega
        | waitFailure m => simp [runDriver, waitPhase] at hs; omega

/-- Claim C7 witness: at a concrete run, the delivered signal value is
the received one. -/
theorem run_signal_fidelity_witness :
    (runDriver 15 none none (ExitStatus.exited 0)).2 = some 15 :=
  (run_signal_fidelity 15 none none (ExitStatus.exited 0)).1 rfl rfl

/-- Claim C8: a process-lookup failure or a signal-delivery failure
during shutdown makes Run return that very error to its caller, not a
fatal termination of the hosting process. -/
theorem run_shutdown_errors_returned (sig : Nat) (e : String)
    (sigErr : Option String) (exit : ExitStatus) :
    (runDriver sig (some e) sigErr exit).1 = RunResult.returned (some e) ∧
    (runDriver sig none (some e) exit).1 = RunResult.returned (some e) :=
  ⟨rfl, rfl⟩

/-- Claim C6 counterexample: a line carrying the CRITICAL] marker is
forwarded at error level, which is not the critical level the claim
names. -/
theorem classifyLine_critical_counterexample :
    classifyLine "2017/01/01 CRITICAL] driver failure" = LogLevel.error ∧
    LogLevel.error ≠ LogLevel.critical := by
  refine ⟨?_, ?_⟩ <;> decide

/-- Claim C6 (amended): each diagnostic line is classified by the first
matching marker in the order DEBUG], Warn], ERROR], CRITICAL]; the
DEBUG], Warn] and ERROR] markers map to debug, warn and error levels,
the CRITICAL] marker also maps to error level (not to a critical
level), and a line with none of the markers maps to info level. -/
theorem classifyLine_marker_levels (s : String) :
    (strContains s "DEBUG]" = true → classifyLine s = LogLevel.debug) ∧
    (strContains s "DEBUG]" = false → strContains s "Warn]" = true →
      classifyLine s = LogLevel.warn) ∧
    (strContains s "DEBUG]" = false → strContains s "Warn]" = false →
      strContains s "ERROR]" = true → classifyLine s = LogLevel.error) ∧
    (strContains s "DEBUG]" = false → strContains s "Warn]" = false →
      strContains s "ERROR]" = false → strContains s "CRITICAL]" = true →
      classifyLine s = LogLevel.error) ∧
    (strContains s "DEBUG]" = false → strContains s "Warn]" = false →
      strContains s "ERROR]" = false → strContains s "CRITICAL]" = false →
      classifyLine s = LogLevel.info) := by
  unfold classifyLine
  by_cases h1 : strContains s "DEBUG]" <;>
    by_cases h2 : strContains s "Warn]" <;>
      by_cases h3 : strContains s "ERROR]" <;>
        by_cases h4 : strContains s "CRITICAL]" <;>
          simp [h1, h2, h3, h4]

/-- Claim C6 (amended) witness: a concrete CRITICAL] line is forwarded
at error level. -/
theorem classifyLine_marker_levels_witness :
    classifyLine "boom CRITICAL] fail" = LogLevel.error :=
  (classifyLine_marker_levels "boom CRITICAL] fail").2.2.2.1
    (by decide) (by decide) (by decide) (by decide)

/-! ### Theorems about construction validation -/

/-- Claim C3: construction succeeds exactly when management URL, user,
password, partition list and external address are all non-empty; the
absence of any one of the five, independently, yields an error and no
aggregator. -/
theorem newF5Router_validation (c : BigIPConfig) (w : RouterWriter) :
    constructionOK (NewF5Router (some c) (some w)) = true ↔
      (c.url ≠ "" ∧ c.user ≠ "" ∧ c.pass ≠ "" ∧ c.partitions ≠ [] ∧
        c.externalAddr ≠ "") := by
  simp only [NewF5Router]
  split_ifs with h1 h2 h3 h4 h5 <;> simp_all [constructionOK]

/-! ### Theorems about snapshot ordering and determinism -/

/-- Strings with the same character list are equal. -/
theorem toList_inj {s t : String} (h : s.toList = t.toList) : s = t := by
  cases s
  cases t
  exact congrArg String.mk (by simpa [String.toList] using h)

/-- The lexicographic order is irreflexive. -/
theorem lexLTb_irrefl : ∀ s : List Char, lexLTb s s = false := by
  intro s
  induction s with
  | nil => rfl
  | cons a as ih => simp [lexLTb, lt_irrefl, ih]

/-- The lexicographic order is transitive. -/
theorem lexLTb_trans :
    ∀ s t u : List Char, lexLTb s t = true → lexLTb t u = true →
      lexLTb s u = true := by
  intro s
  induction s with
  | nil =>
    intro t u h1 h2
    cases t with
    | nil => simp [lexLTb] at h1
    | cons b bs =>
      cases u with
      | nil => simp [lexLTb] at h2
      | cons c cs => simp [lexLTb]
  | cons a as ih =>
    intro t u h1 h2
    cases t with
    | nil => simp [lexLTb] at h1
    | cons b bs =>
      cases u with
      | nil => simp [lexLTb] at h2
      | cons c cs =>
        simp only [lexLTb] at h1 h2 ⊢
        by_cases hab : a < b
        · by_cases hbc : b < c
          · simp [lt_trans hab hbc]
          · by_cases hcb : c < b
            · rw [if_neg hbc, if_pos hcb] at h2
              exact absurd h2 (by simp)
            · have hbceq : b = c := le_antisymm (not_lt.mp hcb) (not_lt.mp hbc)
              subst hbceq
              simp [hab]
        · by_cases hba : b < a
          · rw [if_neg hab, if_pos hba] at h1
            exact absurd h1 (by simp)
          · have habeq : a = b := le_antisymm (not_lt.mp hba) (not_lt.mp hab)
            subst habeq
            rw [if_neg hab, if_neg hab] at h1
            by_cases hac : a < c
            · simp [hac]
            · by_cases hca : c < a
              · rw [if_neg hac, if_pos hca] at h2
                exact absurd h2 (by simp)
              · rw [if_neg hac, if_neg hca] at h2 ⊢
                exact ih bs cs h1 h2

/-- The lexicographic order is asymmetric. -/
theorem lexLTb_asymm :
    ∀ s t : List Char, lexLTb s t = true → lexLTb t s = true → False := by
  intro s t h1 h2
  have h3 := lexLTb_trans s t s h1 h2
  rw [lexLTb_irrefl s] at h3
  exact absurd h3 (by simp)

/-- The lexicographic order is trichotomous. -/
theorem lexLTb_connex :
    ∀ s t : List Char, lexLTb s t = true ∨ s = t ∨ lexLTb t s = true := by
  intro s
  induction s with
  | nil =>
    intro t
    cases t with
    | nil => exact Or.inr (Or.inl rfl)
    | cons b bs => exact Or.inl rfl
  | cons a as ih =>
    intro t
    cases t with
    | nil => exact Or.inr (Or.inr rfl)
    | cons b bs =>
      rcases lt_trichotomy a b with h | h | h
      · exact Or.inl (by simp [lexLTb, h])
      · subst h
        rcases ih bs with h2 | h2 | h2
        · exact Or.inl (by simp [lexLTb, lt_irrefl, h2])
        · exact Or.inr (Or.inl (by rw [h2]))
        · exact Or.inr (Or.inr (by simp [lexLTb, lt_irrefl, h2]))
      · exact Or.inr (Or.inr (by simp [lexLTb, h]))

/-- Strict string order facts repackaged for strLT. -/
theorem strLT_trans {s t u : String} (h1 : strLT s t) (h2 : strLT t u) :
    strLT s u :=
  lexLTb_trans s.toList t.toList u.toList h1 h2

/-- Asymmetry of strLT. -/
theorem strLT_asymm {s t : String} (h1 : strLT s t) (h2 : strLT t s) : False :=
  lexLTb_asymm s.toList t.toList h1 h2

/-- Irreflexivity of strLT. -/
theorem strLT_irrefl (s : String) : ¬ strLT s s := by
  intro h
  unfold strLT at h
  rw [lexLTb_irrefl] at h
  exact absurd h (by simp)

/-- Totality of strLT up to equality. -/
theorem strLT_connex (s t : String) : strLT s t ∨ s = t ∨ strLT t s := by
  rcases lexLTb_connex s.toList t.toList with h | h | h
  · exact Or.inl h
  · exact Or.inr (Or.inl (toList_inj h))
  · exact Or.inr (Or.inr h)

instance : IsTotal routeConfig rcLE where
  total a b := by
    rcases strLT_connex a.serviceName b.serviceName with h | h | h
    · exact Or.inl (Or.inl h)
    · rcases Nat.le_total a.servicePort b.servicePort with hp | hp
      · exact Or.inl (Or.inr ⟨h, hp⟩)
      · exact Or.inr (Or.inr ⟨h.symm, hp⟩)
    · exact Or.inr (Or.inl h)

instance : IsTrans routeConfig rcLE where
  trans a b c hab hbc := by
    rcases hab with h1 | ⟨e1, p1⟩
    · rcases hbc with h2 | ⟨e2, p2⟩
      · exact Or.inl (strLT_trans h1 h2)
      · exact Or.inl (e2 ▸ h1)
    · rcases hbc with h2 | ⟨e2, p2⟩
      · exact Or.inl (e1 ▸ h2)
      · exact Or.inr ⟨e1.trans e2, le_trans p1 p2⟩

instance : IsAntisymm routeConfig rcLT where
  antisymm a b hab hba := by
    exfalso
    rcases hab with h1 | ⟨e1, p1⟩
    · rcases hba with h2 | ⟨e2, p2⟩
      · exact strLT_asymm h1 h2
      · exact absurd h1 (e2 ▸ strLT_irrefl _)
    · rcases hba with h2 | ⟨e2, p2⟩
      · exact absurd h2 (e1 ▸ strLT_irrefl _)
      · exact absurd (lt_trans p1 p2) (lt_irrefl _)

instance : IsTotal routeRule ruleLE where
  total a b := by
    rcases strLT_connex a.fullURI b.fullURI with h | h | h
    · exact Or.inl (Or.inl h)
    · exact Or.inl (Or.inr h)
    · exact Or.inr (Or.inl h)

instance : IsTrans routeRule ruleLE where
  trans a b c hab hbc := by
    rcases hab with h1 | h1
    · rcases hbc with h2 | h2
      · exact Or.inl (strLT_trans h1 h2)
      · exact Or.inl (h2 ▸ h1)
    · rcases hbc with h2 | h2
      · exact Or.inl (h1 ▸ h2)
      · exact Or.inr (h1.trans h2)

instance : IsAntisymm routeRule ruleLT where
  antisymm a b hab hba := absurd (strLT_trans hab hba) (strLT_irrefl _)

/-- Claim C4: in every serialized snapshot the RouteConfig entries
appear sorted by ServiceName ascending and, on equal names, by
ServicePort ascending, the Rule entries appear sorted by FullURI
ascending, and each sorted sequence is a permutation of the model
entries, so sorting any entry list with the comparator yields exactly
the snapshot order. -/
theorem snapshot_sorted (m : ConfigModel) :
    (snapshotRCs m).Pairwise rcLE ∧ (snapshotRCs m).Perm m.routeConfigs ∧
    (snapshotRules m).Pairwise ruleLE ∧ (snapshotRules m).Perm m.rules :=
  ⟨List.sorted_insertionSort rcLE m.routeConfigs,
   List.perm_insertionSort rcLE m.routeConfigs,
   List.sorted_insertionSort ruleLE m.rules,
   List.perm_insertionSort ruleLE m.rules⟩

/-- Replay of the ordering exercised by TestRouteConfigSort: the ten
entries of the test sort into the order the test pins. -/
theorem sort_matches_routeconfig_test :
    List.insertionSort rcLE
      [⟨"bar", 80, []⟩, ⟨"foo", 2, []⟩, ⟨"foo", 8080, []⟩, ⟨"baz", 1, []⟩,
       ⟨"foo", 80, []⟩, ⟨"foo", 9090, []⟩, ⟨"baz", 1000, []⟩,
       ⟨"foo", 8080, []⟩, ⟨"foo", 1, []⟩, ⟨"bar", 1, []⟩] =
      [⟨"bar", 1, []⟩, ⟨"bar", 80, []⟩, ⟨"baz", 1, []⟩, ⟨"baz", 1000, []⟩,
       ⟨"foo", 1, []⟩, ⟨"foo", 2, []⟩, ⟨"foo", 80, []⟩, ⟨"foo", 8080, []⟩,
       ⟨"foo", 8080, []⟩, ⟨"foo", 9090, []⟩] := by
  decide

/-- Replay of the ordering exercised by TestRulesSort: the ten rules of
the test sort into the order the test pins. -/
theorem sort_matches_rules_test :
    List.insertionSort ruleLE
      [⟨"bar", ""⟩, ⟨"foo", ""⟩, ⟨"foo", ""⟩, ⟨"baz", ""⟩, ⟨"foo", ""⟩,
       ⟨"foo", ""⟩, ⟨"baz", ""⟩, ⟨"foo", ""⟩, ⟨"foo", ""⟩, ⟨"bar", ""⟩] =
      [⟨"bar", ""⟩, ⟨"bar", ""⟩, ⟨"baz", ""⟩, ⟨"baz", ""⟩, ⟨"foo", ""⟩,
       ⟨"foo", ""⟩, ⟨"foo", ""⟩, ⟨"foo", ""⟩, ⟨"foo", ""⟩, ⟨"foo", ""⟩] := by
  decide

/-- Sorting with a total preorder is unique on lists whose keys are
pairwise distinct: any two permutation-equal lists sort to the same
list. -/
theorem insertionSort_perm_eq {α κ : Type} [DecidableEq κ] (key : α → κ)
    (le lt : α → α → Prop) [DecidableRel le] [IsTotal α le] [IsTrans α le]
    [IsAntisymm α lt]
    (hlt : ∀ a b, le a b → key a ≠ key b → lt a b)
    {l1 l2 : List α}
    (hn : l1.Pairwise (fun a b => key a ≠ key b))
    (hp : l1.Perm l2) :
    List.insertionSort le l1 = List.insertionSort le l2 := by
  have hperm : (List.insertionSort le l1).Perm (List.insertionSort le l2) :=
    (List.perm_insertionSort le l1).trans
      (hp.trans (List.perm_insertionSort le l2).symm)
  have hsym : ∀ {x y : α}, key x ≠ key y → key y ≠ key x :=
    fun h => fun h2 => h h2.symm
  have hn1 : (List.insertionSort le l1).Pairwise (fun a b => key a ≠ key b) :=
    ((List.perm_insertionSort le l1).pairwise_iff hsym).mpr hn
  have hn2 : (List.insertionSort le l2).Pairwise (fun a b => key a ≠ key b) :=
    (hperm.pairwise_iff hsym).mp hn1
  have hs1 : (List.insertionSort le l1).Pairwise lt :=
    ((List.sorted_insertionSort le l1).and hn1).imp
      (fun h => hlt _ _ h.1 h.2)
  have hs2 : (List.insertionSort le l2).Pairwise lt :=
    ((List.sorted_insertionSort le l2).and hn2).imp
      (fun h => hlt _ _ h.1 h.2)
  exact List.eq_of_perm_of_sorted hperm hs1 hs2

/-- A RouteConfig below another by the comparator and with a different
key is strictly below it. -/
theorem rcLT_of_rcLE_ne {a b : routeConfig} (hle : rcLE a b)
    (hne : rcKey a ≠ rcKey b) : rcLT a b := by
  rcases hle with h | ⟨e, p⟩
  · exact Or.inl h
  · refine Or.inr ⟨e, lt_of_le_of_ne p ?_⟩
    intro hp
    exact hne (by simp [rcKey, e, hp])

/-- A Rule below another by the comparator and with a different key is
strictly below it. -/
theorem ruleLT_of_ruleLE_ne {a b : routeRule} (hle : ruleLE a b)
    (hne : ruleKey a ≠ ruleKey b) : ruleLT a b := by
  rcases hle with h | h
  · exact h
  · exact absurd h hne

/-- Upserting an entry whose key is fresh appends it. -/
theorem upsertBy_fresh {α κ : Type} [DecidableEq κ] (key : α → κ) (a : α)
    (m : List α) (h : ∀ x ∈ m, key x ≠ key a) :
    upsertBy key a m = m ++ [a] := by
  induction m with
  | nil => rfl
  | cons x xs ih =>
    simp only [upsertBy]
    rw [if_neg (h x (List.mem_cons_self x xs))]
    rw [ih (fun y hy => h y (List.mem_cons_of_mem x hy))]
    rfl

/-- Folding upserts of entries with pairwise-distinct keys, all fresh
for the accumulator, appends them in order. -/
theorem foldl_upsertBy_fresh {α κ : Type} [DecidableEq κ] (key : α → κ) :
    ∀ (evs m : List α),
      evs.Pairwise (fun a b => key a ≠ key b) →
      (∀ e ∈ evs, ∀ x ∈ m, key x ≠ key e) →
      evs.foldl (fun acc a => upsertBy key a acc) m = m ++ evs := by
  intro evs
  induction evs with
  | nil => intro m _ _; simp
  | cons e t ih =>
    intro m hp hfresh
    simp only [List.foldl_cons]
    rw [upsertBy_fresh key e m (hfresh e (List.mem_cons_self e t))]
    rw [ih (m ++ [e]) hp.of_cons ?_]
    · simp
    · intro e2 he2 x hx
      rcases List.mem_append.mp hx with hx | hx
      · exact hfresh e2 (List.mem_cons_of_mem e he2) x hx
      · have hxe : x = e := by simpa using hx
        subst hxe
        exact (List.pairwise_cons.mp hp).1 e2 he2

/-- Applying Add events with pairwise-distinct keys reproduces the
event list itself as registry content. -/
theorem applyAddsBy_eq {α κ : Type} [DecidableEq κ] (key : α → κ)
    (evs : List α) (hn : evs.Pairwise (fun a b => key a ≠ key b)) :
    applyAddsBy key evs = evs := by
  have h := foldl_upsertBy_fresh key evs []
    hn (fun e _ x hx => absurd hx (List.not_mem_nil x))
  simpa [applyAddsBy] using h

/-- Claim C2: two Config Models with identical logical content, that
is permutation-equal entry lists with the unique-key invariant,
serialize to byte-identical output; in particular, any permutation of
a burst of Add events with distinct keys builds a model with an
identical snapshot byte sequence. -/
theorem serialize_order_independent (m1 m2 : ConfigModel)
    (evs1 evs2 : List routeConfig) (rls1 rls2 : List routeRule)
    (hnR : m1.routeConfigs.Pairwise (fun a b => rcKey a ≠ rcKey b))
    (hnU : m1.rules.Pairwise (fun a b => ruleKey a ≠ ruleKey b))
    (hpR : m1.routeConfigs.Perm m2.routeConfigs)
    (hpU : m1.rules.Perm m2.rules)
    (hne : evs1.Pairwise (fun a b => rcKey a ≠ rcKey b))
    (hnr : rls1.Pairwise (fun a b => ruleKey a ≠ ruleKey b))
    (hpe : evs1.Perm evs2) (hpr : rls1.Perm rls2) :
    serializeModel m1 = serializeModel m2 ∧
      serializeModel (buildModel evs1 rls1) =
        serializeModel (buildModel evs2 rls2) := by
  have hser : ∀ a b : ConfigModel,
      a.routeConfigs.Pairwise (fun x y => rcKey x ≠ rcKey y) →
      a.rules.Pairwise (fun x y => ruleKey x ≠ ruleKey y) →
      a.routeConfigs.Perm b.routeConfigs → a.rules.Perm b.rules →
      serializeModel a = serializeModel b := by
    intro a b haR haU hR hU
    unfold serializeModel snapshotRCs snapshotRules
    rw [insertionSort_perm_eq rcKey rcLE rcLT
          (fun x y hle hne2 => rcLT_of_rcLE_ne hle hne2) haR hR,
        insertionSort_perm_eq ruleKey ruleLE ruleLT
          (fun x y hle hne2 => ruleLT_of_ruleLE_ne hle hne2) haU hU]
  refine ⟨hser m1 m2 hnR hnU hpR hpU, ?_⟩
  have hne2 : evs2.Pairwise (fun a b => rcKey a ≠ rcKey b) :=
    (hpe.pairwise_iff (fun h => fun h2 => h h2.symm)).mp hne
  have hnr2 : rls2.Pairwise (fun a b => ruleKey a ≠ ruleKey b) :=
    (hpr.pairwise_iff (fun h => fun h2 => h h2.symm)).mp hnr
  show serializeModel ⟨applyAddsBy rcKey evs1, applyAddsBy ruleKey rls1⟩ =
    serializeModel ⟨applyAddsBy rcKey evs2, applyAddsBy ruleKey rls2⟩
  rw [applyAddsBy_eq rcKey evs1 hne, applyAddsBy_eq ruleKey rls1 hnr,
      applyAddsBy_eq rcKey evs2 hne2, applyAddsBy_eq ruleKey rls2 hnr2]
  exact hser ⟨evs1, rls1⟩ ⟨evs2, rls2⟩ hne hnr hpe hpr

/-- Claim C2 witness: two concrete models holding the same two
RouteConfigs and the same two Rules in swapped order serialize to the
same bytes, as do the models built from the swapped Add bursts. -/
theorem serialize_order_independent_witness :
    serializeModel ⟨[⟨"foo", 80, ["127.0.0.1"]⟩, ⟨"bar", 8080, ["127.0.1.1"]⟩],
        [⟨"foo.cf.com", "foo-pool"⟩, ⟨"bar.cf.com", "bar-pool"⟩]⟩ =
      serializeModel ⟨[⟨"bar", 8080, ["127.0.1.1"]⟩, ⟨"foo", 80, ["127.0.0.1"]⟩],
        [⟨"bar.cf.com", "bar-pool"⟩, ⟨"foo.cf.com", "foo-pool"⟩]⟩ ∧
    serializeModel (buildModel
        [⟨"foo", 80, ["127.0.0.1"]⟩, ⟨"bar", 8080, ["127.0.1.1"]⟩]
        [⟨"foo.cf.com", "foo-pool"⟩, ⟨"bar.cf.com", "bar-pool"⟩]) =
      serializeModel (buildModel
        [⟨"bar", 8080, ["127.0.1.1"]⟩, ⟨"foo", 80, ["127.0.0.1"]⟩]
        [⟨"bar.cf.com", "bar-pool"⟩, ⟨"foo.cf.com", "foo-pool"⟩]) :=
  serialize_order_independent
    ⟨[⟨"foo", 80, ["127.0.0.1"]⟩, ⟨"bar", 8080, ["127.0.1.1"]⟩],
      [⟨"foo.cf.com", "foo-pool"⟩, ⟨"bar.cf.com", "bar-pool"⟩]⟩
    ⟨[⟨"bar", 8080, ["127.0.1.1"]⟩, ⟨"foo", 80, ["127.0.0.1"]⟩],
      [⟨"bar.cf.com", "bar-pool"⟩, ⟨"foo.cf.com", "foo-pool"⟩]⟩
    [⟨"foo", 80, ["127.0.0.1"]⟩, ⟨"bar", 8080, ["127.0.1.1"]⟩]
    [⟨"bar", 8080, ["127.0.1.1"]⟩, ⟨"foo", 80, ["127.0.0.1"]⟩]
    [⟨"foo.cf.com", "foo-pool"⟩, ⟨"bar.cf.com", "bar-pool"⟩]
    [⟨"bar.cf.com", "bar-pool"⟩, ⟨"foo.cf.com", "foo-pool"⟩]
    (by decide) (by decide)
    (List.Perm.swap _ _ _) (List.Perm.swap _ _ _)
    (by decide) (by decide)
    (List.Perm.swap _ _ _) (List.Perm.swap _ _ _)

/-! ### Theorems about burst coalescing -/

/-- One enabled step preserves the coalescing invariant, counting one
more mutation for an update step. -/
theorem stepAgg_inv {s s2 : AggState} {k : Nat} {stp : AggStep}
    (hinv : aggInv s k) (hstep : stepAgg s stp = some s2) :
    aggInv s2 (k + countUpdates [stp]) := by
  rcases hinv with ⟨hc, hw, hb⟩
  cases stp with
  | update u =>
    have hs2 : s2 = { s with model := applyEvent u s.model, dirty := true } := by
      simpa [stepAgg] using hstep.symm
    subst hs2
    refine ⟨?_, ?_, ?_⟩
    · simp only [flushCount, countUpdates] at hc ⊢
      cases hd : s.dirty <;> rw [hd] at hc <;> cases hf : s.inFlight <;>
        rw [hf] at hc <;> simp at hc ⊢ <;> omega
    · intro h
      simp at h
    · intro h
      simp at h
  | beginFlush =>
    by_cases hg : s.dirty && s.inFlight.isNone
    · have hd : s.dirty = true := by
        cases hdd : s.dirty <;> rw [hdd] at hg <;> simp_all
      have hf : s.inFlight = none := by
        cases hff : s.inFlight <;> rw [hff] at hg <;> simp_all
      have hs2 : s2 =
          { s with dirty := false
                   inFlight := some (serializeModel s.model) } := by
        rw [stepAgg, if_pos hg] at hstep
        exact (Option.some_inj.mp hstep).symm
      subst hs2
      refine ⟨?_, ?_, ?_⟩
      · simp only [flushCount, countUpdates] at hc ⊢
        rw [hd, hf] at hc
        simp at hc ⊢
        omega
      · intro _
        rfl
      · intro _ h
        simp at h
    · rw [stepAgg, if_neg hg] at hstep
      exact absurd hstep (by simp)
  | endFlush =>
    cases hf : s.inFlight with
    | none =>
      rw [stepAgg, hf] at hstep
      exact absurd hstep (by simp)
    | some snap =>
      rw [stepAgg, hf] at hstep
      have hs2 : s2 =
          { s with inFlight := none
                   writes := s.writes ++ [snap] } :=
        (Option.some_inj.mp hstep).symm
      subst hs2
      refine ⟨?_, ?_, ?_⟩
      · simp only [flushCount, countUpdates] at hc ⊢
        rw [hf] at hc
        simp at hc ⊢
        omega
      · intro hd
        have h2 := hw hd
        rw [hf] at h2
        right
        simp only [List.getLast?_concat]
        exact congrArg some h2
      · intro _ _ _
        simp

/-- Running a trace of enabled steps preserves the invariant, counting
its mutations. -/
theorem runAgg_inv :
    ∀ (tr : List AggStep) (s sf : AggState) (k : Nat),
      aggInv s k → runAgg s tr = some sf →
      aggInv sf (k + countUpdates tr) := by
  intro tr
  induction tr with
  | nil =>
    intro s sf k hinv h
    have hs : s = sf := by simpa [runAgg] using h
    subst hs
    simpa [countUpdates] using hinv
  | cons stp rest ih =>
    intro s sf k hinv h
    simp only [runAgg] at h
    cases hstep : stepAgg s stp with
    | none =>
      rw [hstep] at h
      exact absurd h (by simp)
    | some s2 =>
      rw [hstep] at h
      have h2 := stepAgg_inv hinv hstep
      have h3 := ih s2 sf (k + countUpdates [stp]) h2 h
      have harith : k + countUpdates [stp] + countUpdates rest =
          k + countUpdates (stp :: rest) := by
        cases stp <;> simp [countUpdates] <;> omega
      rw [harith] at h3
      exact h3

/-- The invariant holds initially. -/
theorem initAgg_inv (m : ConfigModel) : aggInv (initAgg m) 0 := by
  refine ⟨?_, ?_, ?_⟩
  · simp [flushCount, initAgg]
  · intro _
    exact Or.inl rfl
  · intro _ _ h
    exact absurd h (by simp)

/-- Claim C1: for every interleaving of a burst of K concurrent
RouteUpdate mutations with the coalescing flush task, starting and
ending quiescent with K at least 1, the Config Sink observes at least
one and at most K writes, and the last write is the serialized
snapshot of the model after the whole burst. -/
theorem burst_coalescing (m0 : ConfigModel) (tr : List AggStep)
    (sf : AggState)
    (hrun : runAgg (initAgg m0) tr = some sf)
    (hq : quiescent sf)
    (hK : 1 ≤ countUpdates tr) :
    1 ≤ sf.writes.length ∧ sf.writes.length ≤ countUpdates tr ∧
      sf.writes.getLast? = some (serializeModel sf.model) := by
  have hinv := runAgg_inv tr (initAgg m0) sf 0 (initAgg_inv m0) hrun
  rw [Nat.zero_add] at hinv
  rcases hinv with ⟨hc, hw, hb⟩
  rcases hq with ⟨hd, hf⟩
  have h1 : 1 ≤ sf.writes.length := hb hd hf hK
  refine ⟨h1, ?_, ?_⟩
  · have h2 : flushCount sf = sf.writes.length := by
      simp [flushCount, hd, hf]
    omega
  · have h2 := hw hd
    rw [hf] at h2
    rcases h2 with h2 | h2
    · rw [h2] at h1
      simp at h1
    · exact h2

/-- Claim C1 witness: the demonstration burst of two concurrent updates
coalesced into one flush satisfies the bounds and its single write is
the post-burst snapshot. -/
theorem burst_coalescing_witness :
    1 ≤ demoFinal.writes.length ∧
      demoFinal.writes.length ≤ countUpdates demoTrace ∧
      demoFinal.writes.getLast? = some (serializeModel demoFinal.model) :=
  burst_coalescing emptyModel demoTrace demoFinal rfl ⟨rfl, rfl⟩ (by decide)

end F5Router
